import Mathlib

/-!
Verification development for the Google Maps business scraper core
(src/helpers.py, src/main.py, src/business.py, src/settings.py).

Python strings are embedded as `List Char` (wrapped in `String` at the
boundaries), floats of the geographic code as `ℚ` (no float rounding is
relevant to the properties below: all comparisons are on values the code
treats exactly), and fallible operations as `Except String`.
-/

/-- Python `s.startswith(p)` on character lists. -/
def startsWithList : List Char → List Char → Bool
  | [], _ => true
  | _ :: _, [] => false
  | c :: cs, x :: xs => x == c && startsWithList cs xs

/-- The character filter shared by helpers.extract_phone_numbers,
helpers.validate_sri_lankan_phone and business.PhoneNumber.__post_init__:
`filter(lambda x: x.isdigit() or x == n, ...)` keeping digits and plus signs.
Inputs are ASCII, so Python str.isdigit agrees with Char.isDigit. -/
def pyPhoneStrip (s : List Char) : List Char :=
  s.filter (fun c => c.isDigit || c == '+')

/-- The normalization block duplicated verbatim in helpers.py (lines 44-52
and 68-75) and business.py (lines 42-50): strip to digits and plus, rewrite a
leading 0 to +94, and prepend +94 when the string starts with neither. -/
def normalizeSLChars (s : List Char) : List Char :=
  let number := pyPhoneStrip s
  if startsWithList ['0'] number then ['+', '9', '4'] ++ number.drop 1
  else if !(startsWithList ['+'] number) then ['+', '9', '4'] ++ number
  else number

/-- business.PhoneNumber.__post_init__: the number field after construction. -/
def phonePostInit (raw : String) : String :=
  String.mk (normalizeSLChars raw.data)

/-- settings.DEFAULT_CONFIG mobile prefix table, duplicated in
helpers.validate_sri_lankan_phone line 85. -/
def mobileCodes : List String :=
  ["70", "71", "72", "74", "75", "76", "77", "78"]

/-- helpers.validate_sri_lankan_phone landline region dictionary
(lines 89-112), as an association list (all keys distinct). -/
def landlineRegions : List (String × String) :=
  [("11", "Colombo"), ("33", "Gampaha"), ("34", "Kalutara"), ("81", "Kandy"),
   ("66", "Matale"), ("52", "Nuwara Eliya"), ("91", "Galle"), ("41", "Matara"),
   ("47", "Hambantota"), ("21", "Jaffna/Kilinochchi"), ("23", "Mannar"),
   ("24", "Vavuniya/Mullaitivu"), ("65", "Batticaloa"), ("63", "Ampara"),
   ("26", "Trincomalee"), ("37", "Kurunegala"), ("32", "Puttalam"),
   ("25", "Anuradhapura"), ("27", "Polonnaruwa"), ("55", "Badulla/Monaragala"),
   ("45", "Ratnapura"), ("35", "Kegalle")]

/-- Result of helpers.validate_sri_lankan_phone: the Python function returns
either (False, an error dict) or (True, the metadata dict with keys is_mobile,
region, normalized, local_format). -/
inductive PhoneValidation where
  | invalid (error : String)
  | valid (is_mobile : Bool) (region : Option String)
      (normalized : String) ( local_format : String)
deriving DecidableEq

/-- The two digits at positions 3 and 4 of the normalized number
(`number[3:5]` in helpers.py line 82). -/
def normalizedCode (phone : String) : String :=
  String.mk (((normalizeSLChars phone.data).drop 3).take 2)

/-- helpers.validate_sri_lankan_phone (lines 58-121): normalize, require the
+94 international form of total length 12, then classify by the two-digit
code after +94 (membership in the mobile table, lookup in the region dict). -/
def validate_sri_lankan_phone (phone : String) : PhoneValidation :=
  let number := normalizeSLChars phone.data
  if !(startsWithList ['+', '9', '4'] number && number.length == 12) then
    .invalid "Invalid length or country code"
  else
    .valid (mobileCodes.contains (String.mk ((number.drop 3).take 2)))
      (landlineRegions.lookup (String.mk ((number.drop 3).take 2)))
      (String.mk number) (String.mk ('0' :: number.drop 3))

/-- Match a literal character sequence, returning the rest of the input. -/
def matchLit : List Char → List Char → Option (List Char)
  | [], s => some s
  | _ :: _, [] => none
  | c :: cs, x :: xs => if x == c then matchLit cs xs else none

/-- Match one character satisfying a class predicate. -/
def matchOne (p : Char → Bool) : List Char → Option (List Char)
  | [] => none
  | x :: xs => if p x then some xs else none

/-- Match exactly n digit characters. -/
def matchDigits : Nat → List Char → Option (List Char)
  | 0, s => some s
  | n + 1, s => (matchOne Char.isDigit s).bind (matchDigits n)

/-- The regex alternation `(?:\+94|0)` shared by all three phone patterns of
helpers.py (lines 21-23); +94 is tried before 0, and the two alternatives are
mutually exclusive so no further backtracking can arise. -/
def matchCC (s : List Char) : Option (List Char) :=
  match matchLit ['+', '9', '4'] s with
  | some r => some r
  | none => matchLit ['0'] s

/-- The character class `[0-2,4-8]` of SL_MOBILE_PATTERN: digits 0 to 2,
a literal comma, and digits 4 to 8. -/
def mobileSecond (c : Char) : Bool :=
  ['0', '1', '2', ',', '4', '5', '6', '7', '8'].contains c

/-- SL_MOBILE_PATTERN body after the country-code alternation:
`7[0-2,4-8]\d{7}`. -/
def mobileBody (s : List Char) : Option (List Char) :=
  (matchLit ['7'] s).bind (fun r => (matchOne mobileSecond r).bind (matchDigits 7))

/-- SL_LANDLINE_PATTERN body after the country-code alternation:
`(?:[1-9][0-9])\d{6}`. -/
def landlineBody (s : List Char) : Option (List Char) :=
  (matchOne (fun c => decide ('1' ≤ c ∧ c ≤ '9')) s).bind
    (fun r => (matchOne Char.isDigit r).bind (matchDigits 6))

/-- SL_GENERAL_PATTERN body after the country-code alternation: `\d{9}`. -/
def generalBody (s : List Char) : Option (List Char) :=
  matchDigits 9 s

/-- One attempt of the combined pattern
`(SL_MOBILE_PATTERN|SL_LANDLINE_PATTERN|SL_GENERAL_PATTERN)` at the head of
the input, with the alternation preference order of the Python regex engine;
returns the remainder after the match. -/
def matchPhoneAt (s : List Char) : Option (List Char) :=
  match (matchCC s).bind mobileBody with
  | some r => some r
  | none =>
    match (matchCC s).bind landlineBody with
    | some r => some r
    | none => (matchCC s).bind generalBody

/-- re.findall scan: at each position try the pattern; on a match record the
matched substring and resume after it, otherwise advance one character.
The fuel argument (initialized to the input length) bounds the recursion;
every step consumes at least one character, so it never runs out early. -/
def findPhoneMatches : Nat → List Char → List (List Char)
  | 0, _ => []
  | _ + 1, [] => []
  | fuel + 1, c :: rest =>
    match matchPhoneAt (c :: rest) with
    | some r =>
      ((c :: rest).take ((c :: rest).length - r.length)) ::
        findPhoneMatches fuel r
    | none => findPhoneMatches fuel rest

/-- helpers.extract_phone_numbers (lines 25-56): find all pattern matches,
then clean each one with the shared normalization block (lines 44-52 are
character-for-character the block embedded as normalizeSLChars). -/
def extract_phone_numbers (text : String) : List String :=
  (findPhoneMatches text.data.length text.data).map
    (fun m => String.mk (normalizeSLChars m))

/-- helpers.subdivide_area (lines 244-288). The small-radius branch (lines
258-259) returns the single input cell before any other computation. The
subdivision branch immediately evaluates `math.pi`, but helpers.py imports
only re, logging, random, time, typing, pathlib, json, csv and datetime —
never math — so Python raises NameError there before producing anything;
that branch is therefore embedded as the error outcome. -/
def subdivide_area (center_lat center_lng radius_km : ℚ)
    (max_radius_km : ℚ := 5) : Except String (List (ℚ × ℚ × ℚ)) :=
  if radius_km ≤ max_radius_km then .ok [(center_lat, center_lng, radius_km)]
  else .error "NameError: name math is not defined"

/-- business.Location dataclass (coordinates as ℚ). -/
structure Location where
  latitude : ℚ
  longitude : ℚ
  address : Option String := none
  city : Option String := none
  district : Option String := none
  country : String := "Sri Lanka"
deriving DecidableEq

/-- business.PhoneNumber dataclass fields (the number field holds the value
after __post_init__, i.e. phonePostInit of the raw input). -/
structure PhoneNumber where
  number : String
  is_mobile : Option Bool := none
  is_validated : Bool := false
  region : Option String := none
deriving DecidableEq

/-- business.Business dataclass, restricted to the fields the orchestrator
logic reads or that distinguish two records carrying the same name
(place_id, hours and extracted_at are never consulted by the code under
verification and are omitted). -/
structure Business where
  name : String
  phone_numbers : List PhoneNumber := []
  website : Option String := none
  category : Option String := none
  rating : Option ℚ := none
  reviews_count : Option Nat := none
deriving DecidableEq

/-- business.SearchParameters dataclass. -/
structure SearchParameters where
  query : String
  location : Option Location := none
  radius_km : ℚ := 5
  language : String := "en"
  max_results : Nat := 120
deriving DecidableEq

/-- settings.DEFAULT_CONFIG location.major_cities: name, lat, lng. -/
def majorCities : List (String × ℚ × ℚ) :=
  [("Colombo", 6.9271, 79.8612), ("Kandy", 7.2906, 80.6337),
   ("Galle", 6.0535, 80.2210), ("Jaffna", 9.6615, 80.0255),
   ("Batticaloa", 7.7170, 81.7000)]

/-- settings.DEFAULT_CONFIG location.districts. -/
def districtNames : List String :=
  ["Ampara", "Anuradhapura", "Badulla", "Batticaloa", "Colombo",
   "Galle", "Gampaha", "Hambantota", "Jaffna", "Kalutara",
   "Kandy", "Kegalle", "Kilinochchi", "Kurunegala", "Mannar",
   "Matale", "Matara", "Monaragala", "Mullaitivu", "Nuwara Eliya",
   "Polonnaruwa", "Puttalam", "Ratnapura", "Trincomalee", "Vavuniya"]

/-- settings.DEFAULT_CONFIG location.default_radius. -/
def defaultRadius : ℚ := 5

/-- settings.DEFAULT_CONFIG extraction.max_results_per_query. -/
def maxResultsPerQuery : Nat := 120

/-- settings.DEFAULT_CONFIG location.subdivision_threshold. -/
def subdivisionThreshold : ℚ := 20

/-- Python str.lower for the ASCII inputs of the gazetteer comparison. -/
def lowerChar (c : Char) : Char :=
  if 'A' ≤ c ∧ c ≤ 'Z' then Char.ofNat (c.toNat + 32) else c

/-- Python s.lower() on a string. -/
def lowerStr (s : String) : String :=
  String.mk (s.data.map lowerChar)

/-- The dynamically typed location argument of GoogleMapsScraper.search:
None, an existing Location, a coordinate dict (its two accepted key
spellings collapsed into one optional value per axis), or free text. -/
inductive LocationInput where
  | pyNone
  | pyLoc (l : Location)
  | pyDict (lat lng : Option ℚ) (city district : Option String)
  | pyStr (s : String)

/-- main.GoogleMapsScraper._process_location (lines 124-181): None passes
through, Location passes through, a dict with both coordinates becomes a
Location, a string is matched case-insensitively against the major-city list
then the district list (the district branch uses the placeholder centroid
7.5, 80.7), and anything else yields None. -/
def process_location : LocationInput → Option Location
  | .pyNone => none
  | .pyLoc l => some l
  | .pyDict lat lng city district =>
    match lat, lng with
    | some la, some ln =>
      some { latitude := la, longitude := ln, city := city, district := district }
    | _, _ => none
  | .pyStr s =>
    match majorCities.find? (fun c => lowerStr c.1 == lowerStr s) with
    | some c => some { latitude := c.2.1, longitude := c.2.2, city := some c.1 }
    | none =>
      match districtNames.find? (fun d => lowerStr d == lowerStr s) with
      | some d => some { latitude := 7.5, longitude := 80.7, district := some d }
      | none => none

/-- The first action GoogleMapsScraper.search takes after assembling its
SearchParameters: either enter the subdivided-area path or dispatch a
single PlaywrightScraper.search_businesses call with those parameters. -/
inductive SearchAction where
  | subdividedSearch (params : SearchParameters)
  | scraperCall (params : SearchParameters)
deriving DecidableEq

/-- main.GoogleMapsScraper.search (lines 73-122) up to the point where
control leaves the orchestrator: fill the radius and max_results defaults
from settings, resolve the location, build SearchParameters, and route on
the subdivision threshold. The method performs no validation of the query
or the radius before dispatching. -/
def searchEntry (query : String) (location : LocationInput)
    (radius_km : Option ℚ) (max_results : Option Nat) : SearchAction :=
  let radius := radius_km.getD defaultRadius
  let maxr := max_results.getD maxResultsPerQuery
  let locObj := process_location location
  let params : SearchParameters :=
    { query := query, location := locObj, radius_km := radius,
      language := "en", max_results := maxr }
  if subdivisionThreshold < radius then .subdividedSearch params
  else .scraperCall params

/-- The duplicate check of main._search_subdivided_area lines 242-244:
append the business only when no already-collected business has the same
name (SearchResult.add_business appends at the end). -/
def addBusinessUnique (combined : List Business) (b : Business) : List Business :=
  if combined.any (fun x => x.name == b.name) then combined else combined ++ [b]

/-- The inner loop of main._search_subdivided_area lines 241-244: merge one
sub-result business list into the combined result. -/
def addCellBusinesses (combined : List Business) (cell : List Business) : List Business :=
  cell.foldl addBusinessUnique combined

/-- Merging a sequence of cell results in order (no cap). -/
def addCells (combined : List Business) (cells : List (List Business)) : List Business :=
  cells.foldl addCellBusinesses combined

/-- The deduplicated union of all cell results, in first-seen order. -/
def combineAll (cells : List (List Business)) : List Business :=
  addCells [] cells

/-- The cell loop of main._search_subdivided_area (lines 214-252), with the
per-cell scraper results supplied as data (PlaywrightScraper.search_businesses
is the external page-extraction collaborator): merge each cell in order, and
after each whole cell break when the combined count has reached max_results
(line 250). Returns the combined businesses and the number of cells
processed. -/
def searchSubdividedLoop (maxResults : Nat) :
    List (List Business) → List Business → List Business × Nat
  | [], combined => (combined, 0)
  | cell :: rest, combined =>
    if maxResults ≤ (addCellBusinesses combined cell).length then
      (addCellBusinesses combined cell, 1)
    else
      ((searchSubdividedLoop maxResults rest (addCellBusinesses combined cell)).1,
       (searchSubdividedLoop maxResults rest (addCellBusinesses combined cell)).2 + 1)

/-- main.GoogleMapsScraper._search_subdivided_area, starting from the empty
combined result. -/
def searchSubdividedArea (maxResults : Nat) (cells : List (List Business)) :
    List Business × Nat :=
  searchSubdividedLoop maxResults cells []

/-- Sample businesses used in concrete counterexamples and witnesses. -/
def bAlpha : Business := { name := "Alpha Pharmacy" }

def bBeta : Business := { name := "Beta Bakery" }

def bGamma : Business := { name := "Gamma Garage" }

def bCafeXFirst : Business := { name := "Cafe X", rating := some 4 }

def bCafeXSecond : Business := { name := "Cafe X", rating := some 5 }

theorem length_le_addBusinessUnique (combined : List Business) (b : Business) :
    combined.length ≤ (addBusinessUnique combined b).length := by
  unfold addBusinessUnique
  split
  · exact Nat.le_refl _
  · simp

theorem length_le_addCellBusinesses (cell : List Business) :
    ∀ combined : List Business,
      combined.length ≤ (addCellBusinesses combined cell).length := by
  induction cell with
  | nil => intro combined; simp [addCellBusinesses]
  | cons b t ih =>
    intro combined
    exact Nat.le_trans (length_le_addBusinessUnique combined b)
      (ih (addBusinessUnique combined b))

theorem length_le_addCells (cells : List (List Business)) :
    ∀ combined : List Business,
      combined.length ≤ (addCells combined cells).length := by
  induction cells with
  | nil => intro combined; simp [addCells]
  | cons c cs ih =>
    intro combined
    exact Nat.le_trans (length_le_addCellBusinesses c combined)
      (ih (addCellBusinesses combined c))

theorem loop_length_ge (maxR : Nat) (cells : List (List Business)) :
    ∀ combined : List Business,
      maxR ≤ (addCells combined cells).length →
      maxR ≤ (searchSubdividedLoop maxR cells combined).1.length := by
  induction cells with
  | nil =>
    intro combined h
    simpa [addCells, searchSubdividedLoop] using h
  | cons cell rest ih =>
    intro combined h
    by_cases hb : maxR ≤ (addCellBusinesses combined cell).length
    · simp [searchSubdividedLoop, hb]
    · have h2 : maxR ≤ (addCells (addCellBusinesses combined cell) rest).length := by
        simpa [addCells] using h
      simpa [searchSubdividedLoop, hb] using ih _ h2

theorem loop_stops (maxR : Nat) (cells : List (List Business)) :
    ∀ (k : Nat) (combined : List Business),
      combined.length < maxR →
      maxR ≤ (addCells combined (cells.take k)).length →
      (searchSubdividedLoop maxR cells combined).2 ≤ k := by
  induction cells with
  | nil =>
    intro k combined _ _
    simp [searchSubdividedLoop]
  | cons cell rest ih =>
    intro k combined hlt hk
    cases k with
    | zero =>
      exfalso
      simp [addCells] at hk
      omega
    | succ j =>
      by_cases hb : maxR ≤ (addCellBusinesses combined cell).length
      · simp [searchSubdividedLoop, hb]
      · have hlt2 : (addCellBusinesses combined cell).length < maxR :=
          Nat.lt_of_not_le hb
        have hk2 : maxR ≤ (addCells (addCellBusinesses combined cell) (rest.take j)).length := by
          simpa [List.take_succ_cons, addCells] using hk
        have := ih j (addCellBusinesses combined cell) hlt2 hk2
        simp [searchSubdividedLoop, hb]
        omega

theorem loop_no_break (maxR : Nat) (cells : List (List Business)) :
    ∀ combined : List Business,
      (addCells combined cells).length < maxR →
      searchSubdividedLoop maxR cells combined = (addCells combined cells, cells.length) := by
  induction cells with
  | nil =>
    intro combined _
    simp [searchSubdividedLoop, addCells]
  | cons cell rest ih =>
    intro combined h
    have h2 : (addCells (addCellBusinesses combined cell) rest).length < maxR := by
      simpa [addCells] using h
    have hb : ¬ maxR ≤ (addCellBusinesses combined cell).length := by
      have := length_le_addCells rest (addCellBusinesses combined cell)
      omega
    simp [searchSubdividedLoop, hb, ih _ h2, addCells]

theorem addCells_eq_flatten (cells : List (List Business)) :
    ∀ combined : List Business,
      addCells combined cells = addCellBusinesses combined cells.flatten := by
  induction cells with
  | nil => intro combined; simp [addCells, addCellBusinesses]
  | cons c cs ih =>
    intro combined
    show addCells (addCellBusinesses combined c) cs = _
    rw [ih]
    simp [addCellBusinesses, List.foldl_append]

theorem mem_addCellBusinesses (cell : List Business) :
    ∀ (combined : List Business) (x : Business),
      x ∈ addCellBusinesses combined cell → x ∈ combined ∨ x ∈ cell := by
  induction cell with
  | nil =>
    intro combined x hx
    exact Or.inl (by simpa [addCellBusinesses] using hx)
  | cons b t ih =>
    intro combined x hx
    have hx2 : x ∈ addCellBusinesses (addBusinessUnique combined b) t := hx
    rcases ih _ x hx2 with h | h
    · unfold addBusinessUnique at h
      split at h
      · exact Or.inl h
      · rcases List.mem_append.mp h with h2 | h2
        · exact Or.inl h2
        · exact Or.inr (by rw [List.mem_singleton.mp h2]; exact List.mem_cons_self b t)
    · exact Or.inr (List.mem_cons_of_mem b h)

theorem filter_addCellBusinesses_keep (n : String) (cell : List Business) :
    ∀ (combined : List Business) (b1 : Business),
      combined.filter (fun b => b.name == n) = [b1] →
      (addCellBusinesses combined cell).filter (fun b => b.name == n) = [b1] := by
  induction cell with
  | nil =>
    intro combined b1 hf
    simpa [addCellBusinesses] using hf
  | cons b t ih =>
    intro combined b1 hf
    show (addCellBusinesses (addBusinessUnique combined b) t).filter _ = [b1]
    apply ih
    unfold addBusinessUnique
    split
    · exact hf
    · next hany =>
      rw [List.filter_append, hf]
      have hb1mem : b1 ∈ combined.filter (fun b => b.name == n) := by
        rw [hf]; exact List.mem_singleton.mpr rfl
      obtain ⟨hb1c, hb1n⟩ := List.mem_filter.mp hb1mem
      have hbn : (b.name == n) = false := by
        by_contra hcon
        have hbeq : (b.name == n) = true := by
          cases h : (b.name == n) with
          | false => exact absurd h hcon
          | true => rfl
        apply hany
        refine List.any_eq_true.mpr ⟨b1, hb1c, ?_⟩
        rw [beq_iff_eq] at hb1n hbeq ⊢
        rw [hb1n, hbeq]
      simp [List.filter_cons, hbn]

theorem filter_addCellBusinesses_first (n : String) (v : List Business) :
    ∀ (u : List Business) (combined : List Business) (b1 : Business),
      (∀ b ∈ combined, b.name ≠ n) → b1.name = n → (∀ b ∈ u, b.name ≠ n) →
      (addCellBusinesses combined (u ++ b1 :: v)).filter (fun b => b.name == n) = [b1] := by
  intro u combined b1 hcomb hb1 hu
  have hsplit : addCellBusinesses combined (u ++ b1 :: v) =
      addCellBusinesses (addCellBusinesses combined u) (b1 :: v) := by
    simp [addCellBusinesses, List.foldl_append]
  rw [hsplit]
  have hacc1 : ∀ b ∈ addCellBusinesses combined u, b.name ≠ n := by
    intro b hb
    rcases mem_addCellBusinesses u combined b hb with h | h
    · exact hcomb b h
    · exact hu b h
  have hany : (addCellBusinesses combined u).any
      (fun x => x.name == b1.name) = false := by
    cases h : (addCellBusinesses combined u).any (fun x => x.name == b1.name) with
    | false => rfl
    | true =>
      obtain ⟨x, hx, hxe⟩ := List.any_eq_true.mp h
      rw [beq_iff_eq] at hxe
      exact absurd (hxe.trans hb1) (hacc1 x hx)
  show (addCellBusinesses (addBusinessUnique (addCellBusinesses combined u) b1) v).filter _ = [b1]
  apply filter_addCellBusinesses_keep
  unfold addBusinessUnique
  rw [hany]
  simp only [Bool.false_eq_true, if_false]
  rw [List.filter_append]
  have hnil : (addCellBusinesses combined u).filter (fun b => b.name == n) = [] := by
    apply List.filter_eq_nil_iff.mpr
    intro b hb
    simp [beq_iff_eq]
    exact hacc1 b hb
  rw [hnil]
  simp [List.filter_cons, hb1]

theorem contains_iff_mem_str (l : List String) (a : String) :
    l.contains a = true ↔ a ∈ l := by
  induction l with
  | nil => simp
  | cons x xs ih => simp [List.contains_cons, ih, beq_iff_eq, List.mem_cons]

theorem lookup_isSome_iff (a : String) (l : List (String × String)) :
    (l.lookup a).isSome = true ↔ a ∈ l.map Prod.fst := by
  induction l with
  | nil => simp [List.lookup]
  | cons p t ih =>
    obtain ⟨k, v⟩ := p
    cases hak : a == k with
    | true =>
      rw [beq_iff_eq] at hak
      simp [List.lookup, hak]
    | false =>
      have hne : a ≠ k := by
        intro h
        rw [h] at hak
        simp at hak
      simp [List.lookup, hak, ih, hne]

theorem validate_eq_valid (phone : String)
    (h1 : startsWithList ['+', '9', '4'] (normalizeSLChars phone.data) = true)
    (h2 : (normalizeSLChars phone.data).length = 12) :
    validate_sri_lankan_phone phone =
      .valid (mobileCodes.contains (normalizedCode phone))
        (landlineRegions.lookup (normalizedCode phone))
        (String.mk (normalizeSLChars phone.data))
        (String.mk ('0' :: (normalizeSLChars phone.data).drop 3)) := by
  unfold validate_sri_lankan_phone normalizedCode
  simp [h1, h2]

theorem normalizeSLChars_eq (s : List Char) :
    normalizeSLChars s =
      if startsWithList ['0'] (pyPhoneStrip s) then
        ['+', '9', '4'] ++ (pyPhoneStrip s).drop 1
      else if !(startsWithList ['+'] (pyPhoneStrip s)) then
        ['+', '9', '4'] ++ pyPhoneStrip s
      else pyPhoneStrip s := rfl

theorem startsWithList_plus (s : List Char)
    (h : startsWithList ['+'] s = true) : ∃ t, s = '+' :: t := by
  cases s with
  | nil => simp [startsWithList] at h
  | cons c t =>
    have hc : c = '+' := by simpa [startsWithList] using h
    exact ⟨t, by rw [hc]⟩

theorem normalize_plus94_digits (ds : List Char)
    (hds : ∀ c ∈ ds, c.isDigit = true) :
    normalizeSLChars (['+', '9', '4'] ++ ds) = ['+', '9', '4'] ++ ds := by
  have hstrip : pyPhoneStrip (['+', '9', '4'] ++ ds) = ['+', '9', '4'] ++ ds := by
    unfold pyPhoneStrip
    apply List.filter_eq_self.mpr
    intro c hc
    rcases List.mem_append.mp hc with h | h
    · fin_cases h <;> decide
    · simp [hds c h]
  have h0 : startsWithList ['0'] ('+' :: '9' :: '4' :: ds) = false := rfl
  have hp : startsWithList ['+'] ('+' :: '9' :: '4' :: ds) = true := rfl
  rw [normalizeSLChars_eq, hstrip]
  simp [h0, hp]

/-- C1 counterexample. The claim says a multi-cell search whose cells
cumulatively yield more than max_results unique businesses returns exactly
max_results businesses and stops before processing all cells. With
max_results = 2 and cells yielding 1 then 2 fresh unique businesses, the
cumulative unique count is 3 > 2, yet the code (which checks the cap only
after merging a whole cell) returns 3 businesses and processes both cells. -/
theorem c1_result_cap_counterexample :
    2 < (combineAll [[bAlpha], [bBeta, bGamma]]).length ∧
    (searchSubdividedArea 2 [[bAlpha], [bBeta, bGamma]]).1.length ≠ 2 ∧
    ¬ (searchSubdividedArea 2 [[bAlpha], [bBeta, bGamma]]).2 <
        ([[bAlpha], [bBeta, bGamma]] : List (List Business)).length := by
  decide

/-- C1, amended: when the cells cumulatively yield more than max_results
unique businesses, the combined result contains AT LEAST max_results
businesses (it can exceed the cap, which is only checked between cells after
a whole cell is merged), and iteration stops at the first cell whose merge
reaches the cap: if some proper prefix of the cells already yields
max_results unique businesses, the cells after that prefix are never
processed. -/
theorem c1_result_cap_amended (maxR : Nat) (cells : List (List Business))
    (hpos : 0 < maxR) (hcum : maxR < (combineAll cells).length) :
    maxR ≤ (searchSubdividedArea maxR cells).1.length ∧
    ∀ k, k < cells.length → maxR ≤ (combineAll (cells.take k)).length →
      (searchSubdividedArea maxR cells).2 ≤ k := by
  constructor
  · exact loop_length_ge maxR cells [] (Nat.le_of_lt hcum)
  · intro k _ hkpre
    exact loop_stops maxR cells k [] hpos hkpre

/-- Witness for the amended C1 at a concrete input. -/
theorem c1_result_cap_amended_witness :
    (0 : Nat) < 1 ∧ 1 < (combineAll [[bAlpha], [bBeta]]).length ∧
    (1 ≤ (searchSubdividedArea 1 [[bAlpha], [bBeta]]).1.length ∧
     ∀ k, k < ([[bAlpha], [bBeta]] : List (List Business)).length →
       1 ≤ (combineAll (([[bAlpha], [bBeta]] : List (List Business)).take k)).length →
       (searchSubdividedArea 1 [[bAlpha], [bBeta]]).2 ≤ k) :=
  ⟨by decide, by decide,
   c1_result_cap_amended 1 [[bAlpha], [bBeta]] (by decide) (by decide)⟩

/-- C2. The spec scenario says the raw text with internal spaces yields one
candidate normalizing to +94712345678. The three regex patterns only match
contiguous digit runs after the country marker (even though the cleaning
step afterwards is written to remove spaces and dashes), so re.findall finds
nothing in this text and extract_phone_numbers returns the empty list. -/
theorem c2_spaced_number_not_extracted :
    extract_phone_numbers "Call us: 071 234 5678" = [] := by decide

/-- C3. With a location string matching neither the major-city list nor the
district list, the resolver does return None and the search is dispatched,
but the dispatched SearchParameters carry the original query text unchanged
and location = None: the unresolved location text is silently dropped, not
merged into the query text (PlaywrightScraper.search_businesses types only
params.query into the search box). -/
theorem c3_unresolved_location_dropped :
    process_location (.pyStr "Nugegoda") = none ∧
    searchEntry "restaurants" (.pyStr "Nugegoda") none none =
      .scraperCall { query := "restaurants", location := none, radius_km := 5,
                     language := "en", max_results := 120 } := by
  exact ⟨by decide, by decide⟩

/-- C4. GoogleMapsScraper.search performs no precondition check: called with
an empty query and a negative radius it still dispatches a collaborator call
(the claim says such contract violations are rejected before any dispatch). -/
theorem c4_no_rejection_before_dispatch :
    searchEntry "" .pyNone (some (-1)) none =
      .scraperCall { query := "", location := none, radius_km := -1,
                     language := "en", max_results := 120 } := by decide

/-- C5. For a radius above the threshold, subdivide_area never returns a
cell list at all: the subdivision branch references the math module, which
helpers.py does not import, so the call raises NameError instead of
producing cells of radius max_radius_km. -/
theorem c5_subdivision_raises_name_error :
    subdivide_area 7.5 80.7 10 5 =
      .error "NameError: name math is not defined" := rfl

/-- C6. For every center and radius at most max_radius_km, subdivide_area
short-circuits on its first test and returns the one-element list containing
exactly the input cell, before the (lattice) part of the function is ever
reached. -/
theorem c6_small_radius_identity
    (center_lat center_lng radius_km max_radius_km : ℚ)
    (h : radius_km ≤ max_radius_km) :
    subdivide_area center_lat center_lng radius_km max_radius_km =
      .ok [(center_lat, center_lng, radius_km)] := by
  unfold subdivide_area
  rw [if_pos h]

/-- Witness for C6 at a concrete input. -/
theorem c6_small_radius_identity_witness :
    (3 : ℚ) ≤ 5 ∧ subdivide_area 6 79 3 5 = .ok [(6, 79, 3)] :=
  ⟨by norm_num, c6_small_radius_identity 6 79 3 5 (by norm_num)⟩

/-- C7 counterexample. The claim quantifies over every multi-cell search in
which an earlier and a later cell both return a business named Cafe X and
asserts the combined result contains exactly one such entry. With
max_results = 1 and an unrelated business in the first cell, the cap stops
iteration before either Cafe X cell is processed, and the combined result
contains no Cafe X entry at all. -/
theorem c7_first_cell_wins_counterexample :
    bCafeXFirst.name = "Cafe X" ∧ bCafeXSecond.name = "Cafe X" ∧
    bCafeXFirst ≠ bCafeXSecond ∧
    (searchSubdividedArea 1 [[bAlpha], [bCafeXFirst], [bCafeXSecond]]).1.filter
      (fun b => b.name == "Cafe X") = [] := by decide

/-- C7, amended: provided the result cap never halts iteration (the total
deduplicated count stays below max_results), a name appearing in an earlier
and a later cell yields exactly one entry in the combined result, namely the
first occurrence in cell order; the later occurrence is discarded, not
merged. -/
theorem c7_first_cell_wins_amended (maxR : Nat) (cells : List (List Business))
    (n : String) (i j : Nat) (b1 b2 : Business)
    (_hi : i < cells.length) (_hj : j < cells.length) (_hij : i < j)
    (_hb1 : b1 ∈ cells.getD i []) (_hb2 : b2 ∈ cells.getD j [])
    (hn1 : b1.name = n) (_hn2 : b2.name = n)
    (hfirst : ∃ u v, cells.flatten = u ++ b1 :: v ∧ ∀ b ∈ u, b.name ≠ n)
    (hnocap : (combineAll cells).length < maxR) :
    (searchSubdividedArea maxR cells).1.filter (fun b => b.name == n) = [b1] := by
  obtain ⟨u, v, hflat, hu⟩ := hfirst
  have hrun : searchSubdividedLoop maxR cells [] = (addCells [] cells, cells.length) :=
    loop_no_break maxR cells [] hnocap
  show (searchSubdividedLoop maxR cells []).1.filter _ = [b1]
  rw [hrun]
  show (addCells [] cells).filter _ = [b1]
  rw [addCells_eq_flatten cells [], hflat]
  exact filter_addCellBusinesses_first n v u [] b1 (by simp) hn1 hu

/-- Witness for the amended C7 at a concrete input. -/
theorem c7_first_cell_wins_witness :
    (0 : Nat) < ([[bCafeXFirst], [bCafeXSecond]] : List (List Business)).length ∧
    (1 : Nat) < ([[bCafeXFirst], [bCafeXSecond]] : List (List Business)).length ∧
    (0 : Nat) < 1 ∧
    bCafeXFirst ∈ ([[bCafeXFirst], [bCafeXSecond]] : List (List Business)).getD 0 [] ∧
    bCafeXSecond ∈ ([[bCafeXFirst], [bCafeXSecond]] : List (List Business)).getD 1 [] ∧
    bCafeXFirst.name = "Cafe X" ∧ bCafeXSecond.name = "Cafe X" ∧
    (∃ u v, ([[bCafeXFirst], [bCafeXSecond]] : List (List Business)).flatten =
        u ++ bCafeXFirst :: v ∧ ∀ b ∈ u, b.name ≠ "Cafe X") ∧
    (combineAll [[bCafeXFirst], [bCafeXSecond]]).length < 5 ∧
    (searchSubdividedArea 5 [[bCafeXFirst], [bCafeXSecond]]).1.filter
      (fun b => b.name == "Cafe X") = [bCafeXFirst] :=
  ⟨by decide, by decide, by decide, by decide, by decide, by decide, by decide,
   ⟨[], [bCafeXSecond], by decide, by simp⟩, by decide,
   c7_first_cell_wins_amended 5 [[bCafeXFirst], [bCafeXSecond]] "Cafe X" 0 1
     bCafeXFirst bCafeXSecond (by decide) (by decide) (by decide) (by decide)
     (by decide) (by decide) (by decide)
     ⟨[], [bCafeXSecond], by decide, by simp⟩ (by decide)⟩

/-- C8. For every input whose normalized form starts with +94 and has length
12, validation succeeds and classifies exactly by the two-digit code after
+94: the is_mobile flag is the membership test of that code in the mobile
table (mobile iff the code is in the set), and the region is the lookup of
that code in the landline region table (a region name exactly when the code
is a key of the table, null for every other code). -/
theorem c8_code_classification (phone : String)
    (h1 : startsWithList ['+', '9', '4'] (normalizeSLChars phone.data) = true)
    (h2 : (normalizeSLChars phone.data).length = 12) :
    validate_sri_lankan_phone phone =
      .valid (mobileCodes.contains (normalizedCode phone))
        (landlineRegions.lookup (normalizedCode phone))
        (String.mk (normalizeSLChars phone.data))
        (String.mk ('0' :: (normalizeSLChars phone.data).drop 3)) ∧
    (mobileCodes.contains (normalizedCode phone) = true ↔
      normalizedCode phone ∈ mobileCodes) ∧
    ((landlineRegions.lookup (normalizedCode phone)).isSome = true ↔
      normalizedCode phone ∈ landlineRegions.map Prod.fst) :=
  ⟨validate_eq_valid phone h1 h2, contains_iff_mem_str _ _,
   lookup_isSome_iff _ _⟩

/-- Witness for C8 at the concrete landline number 0112345678. -/
theorem c8_code_classification_witness :
    startsWithList ['+', '9', '4'] (normalizeSLChars ("0112345678" : String).data) = true ∧
    (normalizeSLChars ("0112345678" : String).data).length = 12 ∧
    (validate_sri_lankan_phone "0112345678" =
        .valid (mobileCodes.contains (normalizedCode "0112345678"))
          (landlineRegions.lookup (normalizedCode "0112345678"))
          (String.mk (normalizeSLChars ("0112345678" : String).data))
          (String.mk ('0' :: (normalizeSLChars ("0112345678" : String).data).drop 3)) ∧
      (mobileCodes.contains (normalizedCode "0112345678") = true ↔
        normalizedCode "0112345678" ∈ mobileCodes) ∧
      ((landlineRegions.lookup (normalizedCode "0112345678")).isSome = true ↔
        normalizedCode "0112345678" ∈ landlineRegions.map Prod.fst)) :=
  ⟨by decide, by decide, c8_code_classification "0112345678" (by decide) (by decide)⟩

/-- C9. Normalization is idempotent on already-normalized valid numbers: a
string that is literally +94 followed by nine digits validates successfully
and the normalized field of the result is the input string, unchanged. -/
theorem c9_normalization_idempotent (s : String)
    (h : ∃ ds, s.data = ['+', '9', '4'] ++ ds ∧ ds.length = 9 ∧
      ∀ c ∈ ds, c.isDigit = true) :
    ∃ m r lf, validate_sri_lankan_phone s = .valid m r s lf := by
  obtain ⟨ds, hdata, hlen, hdig⟩ := h
  have hnorm : normalizeSLChars s.data = s.data := by
    rw [hdata]
    exact normalize_plus94_digits ds hdig
  have h1 : startsWithList ['+', '9', '4'] (normalizeSLChars s.data) = true := by
    rw [hnorm, hdata]
    rfl
  have h2 : (normalizeSLChars s.data).length = 12 := by
    rw [hnorm, hdata]
    simp [hlen]
  have hmk : String.mk (normalizeSLChars s.data) = s := by
    rw [hnorm]
  exact ⟨_, _, _, by rw [validate_eq_valid s h1 h2, hmk]⟩

/-- Witness for C9 at the concrete normalized mobile number +94712345678. -/
theorem c9_normalization_idempotent_witness :
    (∃ ds, ("+94712345678" : String).data = ['+', '9', '4'] ++ ds ∧
      ds.length = 9 ∧ ∀ c ∈ ds, c.isDigit = true) ∧
    ∃ m r lf, validate_sri_lankan_phone "+94712345678" =
      .valid m r "+94712345678" lf :=
  ⟨⟨['7', '1', '2', '3', '4', '5', '6', '7', '8'], by decide, by decide, by decide⟩,
   c9_normalization_idempotent "+94712345678"
     ⟨['7', '1', '2', '3', '4', '5', '6', '7', '8'], by decide, by decide, by decide⟩⟩

/-- C10. For every raw input string the PhoneNumber constructor leaves a
number field that is non-empty and begins with a plus: the stripped string
either already starts with a plus (and is kept), or the +94 international
marker is prepended (after dropping a leading national 0 when present), so
no constructed PhoneNumber retains an opaque local-format number. -/
theorem c10_post_init_international (raw : String) :
    (phonePostInit raw).data ≠ [] ∧
    (phonePostInit raw).data.head? = some '+' ∧
    (startsWithList ['+'] (pyPhoneStrip raw.data) = true ∨
      startsWithList ['+', '9', '4'] (phonePostInit raw).data = true) := by
  have hpp : phonePostInit raw = String.mk (normalizeSLChars raw.data) := rfl
  rw [hpp, normalizeSLChars_eq]
  split_ifs with h0 hp
  · exact ⟨by simp, rfl, Or.inr rfl⟩
  · exact ⟨by simp, rfl, Or.inr rfl⟩
  · have hp2 : startsWithList ['+'] (pyPhoneStrip raw.data) = true := by
      simpa using hp
    obtain ⟨t, ht⟩ := startsWithList_plus _ hp2
    rw [ht] at hp2 ⊢
    exact ⟨by simp, rfl, Or.inl hp2⟩
